import Mathlib

/-!
Verification development for the bg-remove repository: a shallow embedding of
the Penpal RPC bridge (src/services/penpal-service.ts), the embedded page's
connection setup (App.tsx), and the model-lifecycle / inference-queue
coordinator it delegates to, together with theorems settling the spec's
claims about them.

Conventions of the embedding:
- JS machine bytes are `Nat` values; byte arrays are `List Nat` with the
  side condition `ValidBytes` (every entry < 256) where it matters.
- `async` functions that may throw are modelled as pure functions returning
  `Except String α` (the `String` is the JS `Error.message`).
- Stateful collaborators are modelled by explicit state passing over
  `LifecycleState`; the environment (whether a given model load succeeds,
  what the black-box inference runtime returns, the device capabilities)
  is a record of parameters `Env`.
-/

namespace BgRemove

/-! ## Bytes -/

/-- All entries of a modelled byte array are actual bytes. -/
def ValidBytes (bs : List Nat) : Prop := ∀ b ∈ bs, b < 256

instance : DecidablePred ValidBytes := fun bs =>
  inferInstanceAs (Decidable (∀ b ∈ bs, b < 256))

/-! ## Base64 (WHATWG forgiving-base64, the semantics of the platform
`atob` / `btoa` / `FileReader.readAsDataURL` builtins that the bridge
source calls). -/

/-- The standard base64 alphabet, in index order. -/
def b64Alphabet : List Char :=
  "ABCDEFGHIJKLMNOPQRSTUVWXYZabcdefghijklmnopqrstuvwxyz0123456789+/".data

/-- Character of the base64 alphabet at a 6-bit value. -/
def encChar (v : Nat) : Char := b64Alphabet.getD v '?'

/-- The 6-bit value of a base64 character, `none` for characters outside the
alphabet (this is what makes `atob` throw `InvalidCharacterError`). -/
def b64Index (c : Char) : Option Nat :=
  if 'A' ≤ c ∧ c ≤ 'Z' then some (c.toNat - 65)
  else if 'a' ≤ c ∧ c ≤ 'z' then some (c.toNat - 71)
  else if '0' ≤ c ∧ c ≤ '9' then some (c.toNat + 4)
  else if c = '+' then some 62
  else if c = '/' then some 63
  else none

/-- `btoa`: encode bytes three at a time into four base64 characters, padding
the final partial group with `=`. -/
def btoaChunks : List Nat → List Char
  | b1 :: b2 :: b3 :: bs =>
      encChar (b1 / 4) :: encChar (b1 % 4 * 16 + b2 / 16) ::
      encChar (b2 % 16 * 4 + b3 / 64) :: encChar (b3 % 64) :: btoaChunks bs
  | [b1] => [encChar (b1 / 4), encChar (b1 % 4 * 16), '=', '=']
  | [b1, b2] => [encChar (b1 / 4), encChar (b1 % 4 * 16 + b2 / 16),
                 encChar (b2 % 16 * 4), '=']
  | [] => []

/-- Remove one or two trailing `=` padding characters (forgiving-base64
step 2; the caller applies it only when the length is a multiple of 4). -/
def stripPad : List Char → List Char
  | [] => []
  | [c] => if c = '=' then [] else [c]
  | [c1, c2] => if c2 = '=' then (if c1 = '=' then [] else [c1]) else [c1, c2]
  | c1 :: c2 :: c3 :: cs => c1 :: stripPad (c2 :: c3 :: cs)

/-- Map every character to its 6-bit value, failing on the first character
outside the alphabet. -/
def mapB64 : List Char → Option (List Nat)
  | [] => some []
  | c :: cs =>
      match b64Index c, mapB64 cs with
      | some v, some vs => some (v :: vs)
      | _, _ => none

/-- Repack 6-bit groups into bytes, four groups to three bytes; a trailing
group of two or three sextets yields one or two bytes (forgiving-base64
output step; leftover low bits are discarded). -/
def packQuads : List Nat → List Nat
  | v1 :: v2 :: v3 :: v4 :: vs =>
      (v1 * 4 + v2 / 16) :: (v2 % 16 * 16 + v3 / 4) :: (v3 % 4 * 64 + v4) ::
      packQuads vs
  | [v1, v2] => [v1 * 4 + v2 / 16]
  | [v1, v2, v3] => [v1 * 4 + v2 / 16, v2 % 16 * 16 + v3 / 4]
  | _ => []

/-- Model of the platform `atob` on the character list of its argument:
WHATWG forgiving-base64 decode, `none` where `atob` throws. -/
def atobChars (cs0 : List Char) : Option (List Nat) :=
  let cs1 := if cs0.length % 4 = 0 then stripPad cs0 else cs0
  if cs1.length % 4 = 1 then none
  else
    match mapB64 cs1 with
    | none => none
    | some vs => some (packQuads vs)

/-- The message of the `DOMException` a failing `atob` raises; the bridge's
`catch` blocks re-throw it as `new Error(error.message)` unchanged. -/
def decodeErrorMsg : String :=
  "InvalidCharacterError: The string to be decoded is not correctly encoded."

/-! ## The `'base64,'` marker search and split used by `convertToFile`
(models `imageData.includes('base64,')` and `imageData.split('base64,')`
from src/services/penpal-service.ts, specialised to that separator). -/

/-- Does the list begin with the seven characters `base64,`? -/
def isB64Head : List Char → Bool
  | 'b' :: 'a' :: 's' :: 'e' :: '6' :: '4' :: ',' :: _ => true
  | _ => false

/-- Does `base64,` occur anywhere in the list?  Models
`imageData.includes('base64,')`. -/
def hasB64 : List Char → Bool
  | [] => false
  | c :: cs => isB64Head (c :: cs) || hasB64 cs

/-- Models `imageData.split('base64,')`, returned as (piece before the first
marker, remaining pieces).  JS `split` scans left to right, consuming each
non-overlapping occurrence of the separator. -/
def splitB64 : List Char → List Char × List (List Char)
  | [] => ([], [])
  | 'b' :: 'a' :: 's' :: 'e' :: '6' :: '4' :: ',' :: rest =>
      ([], (splitB64 rest).1 :: (splitB64 rest).2)
  | c :: cs => (c :: (splitB64 cs).1, (splitB64 cs).2)

/-- The string the bridge hands to `atob`: `split('base64,')[1]` when the
marker occurs, the whole input otherwise (src/services/penpal-service.ts,
lines 21-23). -/
def base64PayloadOf (cs : List Char) : List Char :=
  if hasB64 cs then ((splitB64 cs).2).headD [] else cs

/-! ## Generic substring test (models JS `String.prototype.includes` for the
`"Falling back"` marker check in App.tsx's `handleModelChange`). -/

/-- Is the first list a prefix of the second? -/
def leadsWith : List Char → List Char → Bool
  | [], _ => true
  | _ :: _, [] => false
  | p :: ps, c :: cs => p == c && leadsWith ps cs

/-- Does `pat` occur as a contiguous substring?  Models `includes`. -/
def containsSub (pat : List Char) : List Char → Bool
  | [] => leadsWith pat []
  | c :: cs => leadsWith pat (c :: cs) || containsSub pat cs

/-! ## Data model -/

/-- Device Capability Probe result, with the field names the source uses
(`getModelInfo` in App.tsx destructures `isWebGPUSupported` and `isIOS`). -/
structure Caps where
  isWebGPUSupported : Bool
  isIOS : Bool
deriving DecidableEq

/-- A JS `Blob`: a declared MIME type and its bytes. -/
structure JsBlob where
  type : String
  bytes : List Nat
deriving DecidableEq

/-- A JS `File`: a `Blob` with a name. -/
structure JsFile where
  name : String
  type : String
  bytes : List Nat
deriving DecidableEq

/-- The `string | Blob` union accepted by the two remove-background
methods. -/
inductive ImageData where
  | str (s : String)
  | blob (b : JsBlob)
deriving DecidableEq

/-- LifecycleState of the Model Lifecycle Manager (spec section 3); the
backend of a ready model is recorded as its acceleration flag. -/
inductive LifecycleState where
  | Uninitialized
  | Initializing (modelId : String)
  | Ready (modelId : String) (accelerated : Bool)
  | Switching (fromId toId : String)
  | Failed (modelId : String) (cause : String)
deriving DecidableEq

/-- The environment a bridge call runs against: whether loading a given
model succeeds, what the black-box inference runtime produces for a given
input file, and the probed device capabilities. -/
structure Env where
  loadOk : String → Bool
  runInference : JsFile → Except String JsFile
  caps : Caps

/-- Collaborator invocations observable from a bridge call, in order:
the readiness step (`initModel()`) and the inference step
(`processImage`). -/
inductive Ev where
  | ensure
  | process
deriving DecidableEq

/-! ## Model Lifecycle Manager (lib/process.ts is not under src/; these are
modelled from the spec). -/

/-- The cross-browser default model (README: RMBG-1.4 is the default). -/
def defaultModelId : String := "briaai/RMBG-1.4"

/-- Modelled from the spec: default-model selection of `initialize(modelId?)`
in lib/process.ts (not under src/): an omitted id selects the default for
the current capabilities, and constrained platforms always get the
non-accelerated default regardless of the requested id. -/
def resolveModelId (caps : Caps) (mid : Option String) : String :=
  if caps.isIOS then defaultModelId else mid.getD defaultModelId

/-- The backend recorded for a freshly loaded model: accelerated iff the
platform supports WebGPU. -/
def backendFor (caps : Caps) : Bool := caps.isWebGPUSupported

/-- Modelled from the spec: the model id a failed switch falls back to —
the previously active model if one exists, otherwise the platform
default. -/
def fallbackTarget (st : LifecycleState) : String :=
  match st with
  | .Ready m _ => m
  | _ => defaultModelId

/-- The message of the distinguishable "fell back" error: App.tsx's
`handleModelChange` recognises it by `err.message.includes("Falling back")`. -/
def fallbackMsg (failedId fbId : String) : String :=
  "Falling back to " ++ fbId ++ " after failing to load " ++ failedId

/-- Modelled from the spec: one attempt of the underlying model load in
lib/process.ts (not under src/): `Initializing -> Ready` on success,
`Initializing -> Failed` on error. -/
def doLoad (env : Env) (target : String) : LifecycleState × Except String Bool :=
  if env.loadOk target then (.Ready target (backendFor env.caps), .ok true)
  else (.Failed target "load failed", .error ("Failed to load model " ++ target))

/-- Modelled from the spec: `switchModel(modelId)` of the Model Lifecycle
Manager (lib/process.ts, not under src/): valid from `Ready` or `Failed`;
on failure it falls back to the previously active model id if one exists,
otherwise to the platform default, surfacing the fallback through the
distinguishable error marker; it never ends in `Failed` when the fallback
load succeeds. -/
def switchModel (env : Env) (st : LifecycleState) (newId : String) :
    LifecycleState × Except String Bool :=
  match st with
  | .Ready _ _ | .Failed _ _ =>
      if env.loadOk newId then (.Ready newId (backendFor env.caps), .ok true)
      else
        let fb := fallbackTarget st
        if env.loadOk fb then
          (.Ready fb (backendFor env.caps), .error (fallbackMsg newId fb))
        else
          (.Failed newId "load failed",
           .error ("Failed to load model " ++ newId))
  | _ => (st, .error "Cannot switch model in the current state")

/-- Modelled from the spec: `initializeModel` / `ensureReady` of
lib/process.ts (not under src/): idempotent when already `Ready` with the
same model; an in-flight `Initializing`/`Switching` is awaited rather than
restarted; from `Ready` with another model it switches; from `Failed` it
re-attempts (through the switch path, which retries the default as the
fallback). -/
def initModel (env : Env) (st : LifecycleState) (mid : Option String) :
    LifecycleState × Except String Bool :=
  let target := resolveModelId env.caps mid
  match st with
  | .Uninitialized => doLoad env target
  | .Initializing m => doLoad env m
  | .Switching _ toId => doLoad env toId
  | .Ready m _ => if m = target then (st, .ok true) else switchModel env st target
  | .Failed _ _ => switchModel env st target

/-- The model id reported for a state. -/
def currentModelIdOf : LifecycleState → String
  | .Uninitialized => defaultModelId
  | .Initializing m => m
  | .Ready m _ => m
  | .Switching _ toId => toId
  | .Failed m _ => m

/-- Value of a field of the marshalled `getModelInfo` record. -/
inductive InfoVal where
  | s (v : String)
  | b (v : Bool)
deriving DecidableEq

/-- Modelled from the spec: `getModelInfo` of lib/process.ts (not under
src/), the read-only status operation.  It is a total, synchronous, pure
function of the state and cached capabilities (App.tsx calls it without
`await`); the field names are the ones the source exhibits: the
`BackgroundRemovalService` interface in src/IFRAME_INTEGRATION.md and the
destructurings `{ isIOS }` / `{ isWebGPUSupported }` in App.tsx.  The
record is modelled as the association list of its fields, in order. -/
def getModelInfoRun (env : Env) (st : LifecycleState) : List (String × InfoVal) :=
  [("currentModelId", .s (currentModelIdOf st)),
   ("isWebGPUSupported", .b env.caps.isWebGPUSupported),
   ("isIOS", .b env.caps.isIOS)]

/-! ## The RPC bridge (src/services/penpal-service.ts). -/

/-- `convertToFile` (src/services/penpal-service.ts, lines 18-39): a string
is stripped to its base64 payload, decoded with `atob`, and wrapped as a
`File` named `input-image.png` of type `image/png`; a `Blob` keeps its
declared MIME type, defaulting to `image/png` when that is empty. -/
def convertToFile : ImageData → Except String JsFile
  | .str imageData =>
      match atobChars (base64PayloadOf imageData.data) with
      | none => .error decodeErrorMsg
      | some bytes => .ok ⟨"input-image.png", "image/png", bytes⟩
  | .blob b =>
      .ok ⟨"input-image.png", if b.type = "" then "image/png" else b.type, b.bytes⟩

/-- `fileToBase64` (src/services/penpal-service.ts, lines 44-54):
`FileReader.readAsDataURL`, i.e. a `data:<mime>;base64,<payload>` URL. -/
def fileToBase64 (f : JsFile) : String :=
  "data:" ++ f.type ++ ";base64," ++ String.mk (btoaChunks f.bytes)

/-- `removeBackground` (src/services/penpal-service.ts, lines 61-74):
auto-initialize the model, convert the input to a `File`, run
`processImage`, and return the processed file as a data URL.  The middle
component records which collaborators were invoked. -/
def removeBackgroundRun (env : Env) (st : LifecycleState) (img : ImageData) :
    LifecycleState × List Ev × Except String String :=
  match initModel env st none with
  | (st1, .error e) => (st1, [Ev.ensure], .error e)
  | (st1, .ok _) =>
      match convertToFile img with
      | .error e => (st1, [Ev.ensure], .error e)
      | .ok inputFile =>
          match env.runInference inputFile with
          | .error e => (st1, [Ev.ensure, Ev.process], .error e)
          | .ok processedFile =>
              (st1, [Ev.ensure, Ev.process], .ok (fileToBase64 processedFile))

/-- `removeBackgroundAsBlob` (src/services/penpal-service.ts, lines 81-93):
identical pipeline, returning the processed file itself. -/
def removeBackgroundAsBlobRun (env : Env) (st : LifecycleState) (img : ImageData) :
    LifecycleState × List Ev × Except String JsFile
  :=
  match initModel env st none with
  | (st1, .error e) => (st1, [Ev.ensure], .error e)
  | (st1, .ok _) =>
      match convertToFile img with
      | .error e => (st1, [Ev.ensure], .error e)
      | .ok inputFile =>
          match env.runInference inputFile with
          | .error e => (st1, [Ev.ensure, Ev.process], .error e)
          | .ok processedFile => (st1, [Ev.ensure, Ev.process], .ok processedFile)

/-- `initializeModel` (src/services/penpal-service.ts, lines 100-107): a
try/catch wrapper around the library's `initializeModel`; on our error
model (the message) the re-throw `new Error(error.message)` is the
identity. -/
def initializeModelRun (env : Env) (st : LifecycleState) (mid : Option String) :
    LifecycleState × Except String Bool :=
  initModel env st mid

/-- The four remote-callable operations, each constructor carrying the
function this development gives that method. -/
inductive MethodImpl where
  | imgToString
      (f : Env → LifecycleState → ImageData →
           LifecycleState × List Ev × Except String String)
  | imgToBlob
      (f : Env → LifecycleState → ImageData →
           LifecycleState × List Ev × Except String JsFile)
  | modelInit
      (f : Env → LifecycleState → Option String →
           LifecycleState × Except String Bool)
  | modelInfo (f : Env → LifecycleState → List (String × InfoVal))

/-- `penpalMethods` (src/services/penpal-service.ts, lines 117-122): the
object of methods handed to Penpal, as the association list of its own
properties. -/
def penpalMethodsObj : List (String × MethodImpl) :=
  [("removeBackground", .imgToString removeBackgroundRun),
   ("removeBackgroundAsBlob", .imgToBlob removeBackgroundAsBlobRun),
   ("initializeModel", .modelInit initializeModelRun),
   ("getModelInfo", .modelInfo getModelInfoRun)]

/-! ## Connection establishment (App.tsx in src/IFRAME_INTEGRATION.md plus
the penpal `WindowMessenger`, an external library). -/

/-- Model of the penpal `WindowMessenger` origin check: a remote origin is
accepted iff the allow-list contains it literally or contains the wildcard
entry `"*"`. -/
def originAllowed (allowedOrigins : List String) (origin : String) : Bool :=
  allowedOrigins.any (fun o => o == "*" || o == origin)

/-- The allow-list the embedded page passes, verbatim from App.tsx:
`allowedOrigins: ['*']`. -/
def appAllowedOrigins : List String := ["*"]

/-- Connection establishment: a remote context at `origin` obtains the
method set iff its origin passes the messenger's check. -/
def connectFromOrigin (allowedOrigins : List String) (origin : String) :
    Option (List (String × MethodImpl)) :=
  if originAllowed allowedOrigins origin then some penpalMethodsObj else none

/-! ## `handleModelChange` (App.tsx in src/IFRAME_INTEGRATION.md). -/

/-- What the model dropdown handler leaves the UI with. -/
inductive UiOutcome where
  | selected (m : String)
  | errorShown (msg : String)
deriving DecidableEq

/-- `handleModelChange` (App.tsx): a successful `initializeModel(newModel)`
selects the new model; a `false` result is turned into an error; an error
whose message includes `"Falling back"` resets the selection to the
default model; any other error is shown. -/
def handleModelChange (newModel : String) (r : Except String Bool) : UiOutcome :=
  match r with
  | .ok true => .selected newModel
  | .ok false => .errorShown "Failed to initialize new model"
  | .error msg =>
      if containsSub "Falling back".data msg.data then .selected "briaai/RMBG-1.4"
      else .errorShown msg

/-! ## Inference Request Queue (lib/process.ts is not under src/; modelled
from the spec). -/

/-- Modelled from the spec: QueueState of the Inference Request Queue
(lib/process.ts, not under src/): the next sequence number, the FIFO of
pending requests, the requests currently inside the black-box runtime,
and the worker's busy flag. -/
structure QueueState where
  nextSeq : Nat
  pending : List Nat
  inFlight : List Nat
  processing : Bool
deriving DecidableEq

/-- Modelled from the spec: the transitions of the Inference Request Queue
(lib/process.ts, not under src/).  `submit` may interleave arbitrarily
with the worker; the worker starts the head of the FIFO only when its
busy flag is down, and lowers the flag when an inference finishes. -/
inductive QStep : QueueState → QueueState → Prop where
  | submit (q : QueueState) :
      QStep q ⟨q.nextSeq + 1, q.pending ++ [q.nextSeq], q.inFlight, q.processing⟩
  | start (q : QueueState) (r : Nat) (rest : List Nat)
      (hflag : q.processing = false) (hp : q.pending = r :: rest) :
      QStep q ⟨q.nextSeq, rest, q.inFlight ++ [r], true⟩
  | finish (q : QueueState) (r : Nat) (rest : List Nat)
      (hf : q.inFlight = r :: rest) :
      QStep q ⟨q.nextSeq, q.pending, rest, false⟩

/-- Queue states reachable from the empty initial state under any
interleaving of submissions and worker activity. -/
inductive QReach : QueueState → Prop where
  | init : QReach ⟨0, [], [], false⟩
  | step {q q' : QueueState} : QReach q → QStep q q' → QReach q'

/-! ## The string-marshalling rule as claim C9 words it (definition written
from the claim, for comparison with `convertToFile`). -/

/-- Claim C9's reading of the string branch: strip everything up to and
including the FIRST `'base64,'` marker and decode the whole remainder as
base64. -/
def claimRemainderMarshal (s : String) : Option (List Nat) :=
  if hasB64 s.data then atobChars (s.data.drop ((splitB64 s.data).1.length + 7))
  else atobChars s.data

/-- Proof-layer description of `btoaChunks` output before padding: the
sextet characters of the encoding. -/
def sextChars : List Nat → List Char
  | b1 :: b2 :: b3 :: bs =>
      encChar (b1 / 4) :: encChar (b1 % 4 * 16 + b2 / 16) ::
      encChar (b2 % 16 * 4 + b3 / 64) :: encChar (b3 % 64) :: sextChars bs
  | [b1] => [encChar (b1 / 4), encChar (b1 % 4 * 16)]
  | [b1, b2] => [encChar (b1 / 4), encChar (b1 % 4 * 16 + b2 / 16),
                 encChar (b2 % 16 * 4)]
  | [] => []

/-- Proof-layer description of the sextet values of the encoding. -/
def sextVals : List Nat → List Nat
  | b1 :: b2 :: b3 :: bs =>
      (b1 / 4) :: (b1 % 4 * 16 + b2 / 16) :: (b2 % 16 * 4 + b3 / 64) ::
      (b3 % 64) :: sextVals bs
  | [b1] => [b1 / 4, b1 % 4 * 16]
  | [b1, b2] => [b1 / 4, b1 % 4 * 16 + b2 / 16, b2 % 16 * 4]
  | [] => []

/-- The seven characters of the `'base64,'` separator. -/
def b64Marker : List Char := ['b', 'a', 's', 'e', '6', '4', ',']

/-- An environment in which every model load succeeds, inference echoes its
input file, and the platform is an accelerated desktop. -/
def envAllOk : Env := ⟨fun _ => true, fun f => .ok f, ⟨true, false⟩⟩

/-- An environment in which every model load fails. -/
def envNoLoad : Env := ⟨fun _ => false, fun f => .ok f, ⟨true, false⟩⟩

/-- An environment in which only the MODNet model fails to load. -/
def envModnetDown : Env :=
  ⟨fun m => !(m == "Xenova/modnet"), fun f => .ok f, ⟨true, false⟩⟩

/-! ## Supporting lemmas -/

theorem encChar_ne_eq (v : Nat) : encChar v ≠ '=' := by
  by_cases h : v < 64
  · have hall : ∀ w, w < 64 → encChar w ≠ '=' := by decide
    exact hall v h
  · unfold encChar
    rw [List.getD_eq_default]
    · decide
    · have : b64Alphabet.length = 64 := by decide
      omega

theorem encChar_ne_comma (v : Nat) : encChar v ≠ ',' := by
  by_cases h : v < 64
  · have hall : ∀ w, w < 64 → encChar w ≠ ',' := by decide
    exact hall v h
  · unfold encChar
    rw [List.getD_eq_default]
    · decide
    · have : b64Alphabet.length = 64 := by decide
      omega

theorem b64Index_encChar : ∀ v, v < 64 → b64Index (encChar v) = some v := by decide

theorem btoaChunks_length_mod (bs : List Nat) : (btoaChunks bs).length % 4 = 0 := by
  induction bs using btoaChunks.induct with
  | case1 b1 b2 b3 bs ih => simp [btoaChunks]; omega
  | case2 b1 => simp [btoaChunks]
  | case3 b1 b2 => simp [btoaChunks]
  | case4 => simp [btoaChunks]

theorem btoaChunks_length_ge (bs : List Nat) (h : bs ≠ []) :
    3 ≤ (btoaChunks bs).length := by
  match bs with
  | [] => exact absurd rfl h
  | [b1] => simp [btoaChunks]
  | [b1, b2] => simp [btoaChunks]
  | b1 :: b2 :: b3 :: rest => simp [btoaChunks]

theorem exists_three_of_length {l : List Char} (h : 3 ≤ l.length) :
    ∃ a b c t, l = a :: b :: c :: t := by
  match l with
  | a :: b :: c :: t => exact ⟨a, b, c, t, rfl⟩
  | [] => simp at h
  | [a] => simp at h
  | [a, b] => simp at h

theorem stripPad_append (p s : List Char) (h : 3 ≤ s.length) :
    stripPad (p ++ s) = p ++ stripPad s := by
  induction p with
  | nil => simp
  | cons c p' ih =>
      have h3 : 3 ≤ (p' ++ s).length := by simp; omega
      obtain ⟨a, b, c', t, heq⟩ := exists_three_of_length h3
      calc stripPad ((c :: p') ++ s) = stripPad (c :: (p' ++ s)) := by simp
        _ = c :: stripPad (p' ++ s) := by rw [heq]; simp [stripPad]
        _ = c :: (p' ++ stripPad s) := by rw [ih]
        _ = (c :: p') ++ stripPad s := by simp

theorem stripPad_four (c1 c2 c3 c4 : Char) (h : c4 ≠ '=') :
    stripPad [c1, c2, c3, c4] = [c1, c2, c3, c4] := by
  simp [stripPad, h]

theorem stripPad_btoa (bs : List Nat) :
    stripPad (btoaChunks bs) = sextChars bs := by
  induction bs using btoaChunks.induct with
  | case1 b1 b2 b3 rest ih =>
      by_cases hr : rest = []
      · subst hr
        simp only [btoaChunks, sextChars]
        exact stripPad_four _ _ _ _ (encChar_ne_eq _)
      · have : btoaChunks (b1 :: b2 :: b3 :: rest) =
            [encChar (b1 / 4), encChar (b1 % 4 * 16 + b2 / 16),
             encChar (b2 % 16 * 4 + b3 / 64), encChar (b3 % 64)] ++
            btoaChunks rest := by simp [btoaChunks]
        rw [this, stripPad_append _ _ (btoaChunks_length_ge rest hr), ih]
        simp [sextChars]
  | case2 b1 => simp [btoaChunks, sextChars, stripPad]
  | case3 b1 b2 => simp [btoaChunks, sextChars, stripPad, encChar_ne_eq]
  | case4 => simp [btoaChunks, sextChars, stripPad]

theorem sextChars_length_mod (bs : List Nat) : (sextChars bs).length % 4 ≠ 1 := by
  induction bs using btoaChunks.induct with
  | case1 b1 b2 b3 rest ih => simp [sextChars] at ih ⊢; omega
  | case2 b1 => simp [sextChars]
  | case3 b1 b2 => simp [sextChars]
  | case4 => simp [sextChars]

theorem mapB64_sextChars (bs : List Nat) (h : ValidBytes bs) :
    mapB64 (sextChars bs) = some (sextVals bs) := by
  induction bs using btoaChunks.induct with
  | case1 b1 b2 b3 rest ih =>
      have h1 : b1 < 256 := h b1 (by simp)
      have h2 : b2 < 256 := h b2 (by simp)
      have h3 : b3 < 256 := h b3 (by simp)
      have hrest : ValidBytes rest := fun b hb => h b (by simp [hb])
      simp only [sextChars, sextVals, mapB64, ih hrest,
        b64Index_encChar (b1 / 4) (by omega),
        b64Index_encChar (b1 % 4 * 16 + b2 / 16) (by omega),
        b64Index_encChar (b2 % 16 * 4 + b3 / 64) (by omega),
        b64Index_encChar (b3 % 64) (by omega)]
  | case2 b1 =>
      have h1 : b1 < 256 := h b1 (by simp)
      simp only [sextChars, sextVals, mapB64,
        b64Index_encChar (b1 / 4) (by omega),
        b64Index_encChar (b1 % 4 * 16) (by omega)]
  | case3 b1 b2 =>
      have h1 : b1 < 256 := h b1 (by simp)
      have h2 : b2 < 256 := h b2 (by simp)
      simp only [sextChars, sextVals, mapB64,
        b64Index_encChar (b1 / 4) (by omega),
        b64Index_encChar (b1 % 4 * 16 + b2 / 16) (by omega),
        b64Index_encChar (b2 % 16 * 4) (by omega)]
  | case4 => simp [sextChars, sextVals, mapB64]

theorem packQuads_sextVals (bs : List Nat) (h : ValidBytes bs) :
    packQuads (sextVals bs) = bs := by
  induction bs using btoaChunks.induct with
  | case1 b1 b2 b3 rest ih =>
      have h1 : b1 < 256 := h b1 (by simp)
      have h2 : b2 < 256 := h b2 (by simp)
      have h3 : b3 < 256 := h b3 (by simp)
      have hrest : ValidBytes rest := fun b hb => h b (by simp [hb])
      simp only [sextVals, packQuads, ih hrest, List.cons.injEq]
      exact ⟨by omega, by omega, by omega, trivial⟩
  | case2 b1 =>
      have h1 : b1 < 256 := h b1 (by simp)
      simp only [sextVals, packQuads, List.cons.injEq]
      exact ⟨by omega, trivial⟩
  | case3 b1 b2 =>
      have h1 : b1 < 256 := h b1 (by simp)
      have h2 : b2 < 256 := h b2 (by simp)
      simp only [sextVals, packQuads, List.cons.injEq]
      exact ⟨by omega, by omega, trivial⟩
  | case4 => simp [sextVals, packQuads]

theorem atob_btoa (bs : List Nat) (h : ValidBytes bs) :
    atobChars (btoaChunks bs) = some bs := by
  unfold atobChars
  rw [if_pos (btoaChunks_length_mod bs), stripPad_btoa]
  rw [if_neg (sextChars_length_mod bs), mapB64_sextChars bs h]
  simp [packQuads_sextVals bs h]

theorem isB64Head_iff (l : List Char) :
    isB64Head l = true ↔ ∃ t, l = b64Marker ++ t := by
  constructor
  · intro h
    unfold isB64Head at h
    split at h
    · next t => exact ⟨t, by simp [b64Marker]⟩
    · simp at h
  · rintro ⟨t, rfl⟩
    simp [b64Marker, isB64Head]

theorem splitB64_marker (t : List Char) :
    splitB64 (b64Marker ++ t) = ([], (splitB64 t).1 :: (splitB64 t).2) := rfl

theorem splitB64_cons_of_not_head (c : Char) (cs : List Char)
    (h : isB64Head (c :: cs) = false) :
    splitB64 (c :: cs) = (c :: (splitB64 cs).1, (splitB64 cs).2) := by
  rw [splitB64.eq_def]
  split
  · next heq => simp at heq
  · next rest heq =>
      rw [heq] at h
      simp [isB64Head] at h
  · rename_i heq
    injection heq with h1 h2
    subst h1
    subst h2
    rfl

theorem splitB64_of_not_hasB64 (w : List Char) (h : hasB64 w = false) :
    splitB64 w = (w, []) := by
  induction w with
  | nil => rfl
  | cons c cs ih =>
      have hh : isB64Head (c :: cs) = false ∧ hasB64 cs = false := by
        have := h
        simp only [hasB64, Bool.or_eq_false_iff] at this
        exact this
      rw [splitB64_cons_of_not_head c cs hh.1, ih hh.2]

theorem splitB64_append_marker (a t : List Char) (h : hasB64 a = false) :
    splitB64 (a ++ b64Marker ++ t) = (a, (splitB64 t).1 :: (splitB64 t).2) := by
  induction a with
  | nil => simpa using splitB64_marker t
  | cons c a' ih =>
      have hcomp : isB64Head (c :: a') = false ∧ hasB64 a' = false := by
        have := h
        simp only [hasB64, Bool.or_eq_false_iff] at this
        exact this
      have hch : isB64Head (c :: a') = false := hcomp.1
      have hhead : isB64Head ((c :: a') ++ b64Marker ++ t) = false := by
        by_contra hcon
        rw [Bool.not_eq_false, isB64Head_iff] at hcon
        obtain ⟨r, hr⟩ := hcon
        rcases a' with _ | ⟨d1, _ | ⟨d2, _ | ⟨d3, _ | ⟨d4, _ | ⟨d5, _ | ⟨d6, rest⟩⟩⟩⟩⟩⟩
        · simp [b64Marker] at hr
        · simp [b64Marker] at hr
        · simp [b64Marker] at hr
        · simp [b64Marker] at hr
        · simp [b64Marker] at hr
        · simp [b64Marker] at hr
        · simp only [b64Marker, List.cons_append, List.nil_append,
            List.cons.injEq] at hr
          obtain ⟨hc, h1, h2, h3, h4, h5, h6, -⟩ := hr
          subst hc; subst h1; subst h2; subst h3; subst h4; subst h5; subst h6
          simp [isB64Head] at hch
      have hstep : (c :: a') ++ b64Marker ++ t = c :: (a' ++ b64Marker ++ t) := by
        simp
      rw [hstep] at hhead ⊢
      rw [splitB64_cons_of_not_head _ _ hhead, ih hcomp.2]

theorem hasB64_append_marker (a t : List Char) :
    hasB64 (a ++ b64Marker ++ t) = true := by
  induction a with
  | nil =>
      simp only [List.nil_append]
      rw [show b64Marker ++ t = 'b' :: 'a' :: 's' :: 'e' :: '6' :: '4' :: ',' :: t
          from rfl]
      simp [hasB64, isB64Head]
  | cons c a' ih =>
      have hstep : (c :: a') ++ b64Marker ++ t = c :: (a' ++ b64Marker ++ t) := by
        simp
      rw [hstep, hasB64, ih]
      simp

theorem not_hasB64_of_comma_notMem (w : List Char) (h : ',' ∉ w) :
    hasB64 w = false := by
  induction w with
  | nil => rfl
  | cons c cs ih =>
      have h1 : ',' ∉ cs := fun hm => h (by simp [hm])
      have h2 : isB64Head (c :: cs) = false := by
        by_contra hcon
        rw [Bool.not_eq_false, isB64Head_iff] at hcon
        obtain ⟨r, hr⟩ := hcon
        exact h (by rw [hr]; simp [b64Marker])
      simp [hasB64, h2, ih h1]

theorem comma_notMem_btoaChunks (bs : List Nat) : ',' ∉ btoaChunks bs := by
  induction bs using btoaChunks.induct with
  | case1 b1 b2 b3 rest ih =>
      simp only [btoaChunks, List.mem_cons, not_or]
      exact ⟨Ne.symm (encChar_ne_comma _), Ne.symm (encChar_ne_comma _),
        Ne.symm (encChar_ne_comma _), Ne.symm (encChar_ne_comma _), ih⟩
  | case2 b1 =>
      simp only [btoaChunks, List.mem_cons, not_or]
      exact ⟨Ne.symm (encChar_ne_comma _), Ne.symm (encChar_ne_comma _),
        by decide, by decide, by simp⟩
  | case3 b1 b2 =>
      simp only [btoaChunks, List.mem_cons, not_or]
      exact ⟨Ne.symm (encChar_ne_comma _), Ne.symm (encChar_ne_comma _),
        Ne.symm (encChar_ne_comma _), by decide, by simp⟩
  | case4 => simp [btoaChunks]

theorem leadsWith_append_self (p t : List Char) : leadsWith p (p ++ t) = true := by
  induction p with
  | nil => rfl
  | cons c cs ih => simp [leadsWith, ih]

theorem containsSub_self_append (pat z : List Char) :
    containsSub pat (pat ++ z) = true := by
  cases pat with
  | nil => cases z <;> simp [containsSub, leadsWith]
  | cons p ps =>
      have : (p :: ps) ++ z = p :: (ps ++ z) := rfl
      rw [this, containsSub]
      rw [show p :: (ps ++ z) = (p :: ps) ++ z from rfl, leadsWith_append_self]
      simp

theorem initModel_ok_of_loadOk (env : Env) (st : LifecycleState)
    (mid : Option String) (h : ∀ m, env.loadOk m = true) :
    (initModel env st mid).2 = .ok true := by
  cases st <;> simp [initModel, doLoad, switchModel, h] <;> split <;> simp [h]

theorem removeBackground_eq_blob_map (env : Env) (st : LifecycleState)
    (img : ImageData) :
    removeBackgroundRun env st img =
      ((removeBackgroundAsBlobRun env st img).1,
       (removeBackgroundAsBlobRun env st img).2.1,
       Except.map fileToBase64 (removeBackgroundAsBlobRun env st img).2.2) := by
  unfold removeBackgroundRun removeBackgroundAsBlobRun
  rcases hi : initModel env st none with ⟨st1, r1⟩
  rcases r1 with e | b
  · simp [Except.map]
  · rcases hc : convertToFile img with e | f
    · simp [hc, Except.map]
    · rcases hr : env.runInference f with e | pf <;> simp [hc, hr, Except.map]

/-- C1 counterexample: the embedded side ships the wildcard allow-list
`['*']`, so an origin that is not in the allow-list still obtains the full
remote method set. -/
theorem claim_C1_counterexample :
    (connectFromOrigin appAllowedOrigins "https://evil.example").isSome = true ∧
    "https://evil.example" ∉ appAllowedOrigins := by
  exact ⟨rfl, by decide⟩

/-- C1 (amended): connection establishment validates the remote origin
against the caller-supplied allow-list, where an entry `"*"` is a wildcard
matching every origin; an origin neither listed nor covered by a wildcard
never obtains the method set, and an accepted origin obtains exactly the
four-method set — but the embedded side as shipped passes `['*']`, so
every remote origin connects successfully. -/
theorem claim_C1 : ∀ (allowed : List String) (origin : String),
    ((connectFromOrigin allowed origin).isSome = true ↔
      ("*" ∈ allowed ∨ origin ∈ allowed)) ∧
    (connectFromOrigin allowed origin = none ∨
     connectFromOrigin allowed origin = some penpalMethodsObj) ∧
    (∀ origin2 : String,
      (connectFromOrigin appAllowedOrigins origin2).isSome = true) := by
  intro allowed origin
  refine ⟨?_, ?_, fun origin2 => rfl⟩
  · unfold connectFromOrigin originAllowed
    constructor
    · intro h
      split at h
      · next hcond =>
          rw [List.any_eq_true] at hcond
          obtain ⟨o, ho, hor⟩ := hcond
          rcases Bool.or_eq_true_iff.mp hor with h1 | h1
          · have heq : o = "*" := beq_iff_eq.mp h1
            exact Or.inl (heq ▸ ho)
          · have heq : o = origin := beq_iff_eq.mp h1
            exact Or.inr (heq ▸ ho)
      · simp at h
    · intro h
      have hany : allowed.any (fun o => o == "*" || o == origin) = true := by
        rw [List.any_eq_true]
        rcases h with h | h
        · exact ⟨"*", h, by simp⟩
        · exact ⟨origin, h, by simp⟩
      rw [if_pos hany]
      rfl
  · unfold connectFromOrigin
    split
    · exact Or.inr rfl
    · exact Or.inl rfl

/-- C2: the object handed to Penpal exposes exactly the four methods
`removeBackground`, `removeBackgroundAsBlob`, `initializeModel`,
`getModelInfo` — each bound to the corresponding operation — and looking
up any other name yields nothing. -/
theorem claim_C2 :
    (penpalMethodsObj.map Prod.fst =
       ["removeBackground", "removeBackgroundAsBlob", "initializeModel",
        "getModelInfo"] ∧
     penpalMethodsObj.lookup "removeBackground" =
       some (.imgToString removeBackgroundRun) ∧
     penpalMethodsObj.lookup "removeBackgroundAsBlob" =
       some (.imgToBlob removeBackgroundAsBlobRun) ∧
     penpalMethodsObj.lookup "initializeModel" =
       some (.modelInit initializeModelRun) ∧
     penpalMethodsObj.lookup "getModelInfo" = some (.modelInfo getModelInfoRun)) ∧
    (∀ s : String,
      s ∉ ["removeBackground", "removeBackgroundAsBlob", "initializeModel",
           "getModelInfo"] →
      penpalMethodsObj.lookup s = none) := by
  constructor
  · exact ⟨rfl, rfl, rfl, rfl, rfl⟩
  · intro s hs
    simp only [List.mem_cons, List.not_mem_nil, or_false, not_or] at hs
    obtain ⟨h1, h2, h3, h4⟩ := hs
    simp [penpalMethodsObj, List.lookup, beq_eq_false_iff_ne.mpr h1,
      beq_eq_false_iff_ne.mpr h2, beq_eq_false_iff_ne.mpr h3,
      beq_eq_false_iff_ne.mpr h4]

theorem claim_C2_witness : penpalMethodsObj.lookup "postMessage" = none :=
  claim_C2.2 "postMessage" (by decide)

/-- C3: `removeBackground` is `removeBackgroundAsBlob` followed by the
data-URL encoding of the same processed result: same final state, same
collaborator invocations, and the string result is exactly the encoding
of the binary result. -/
theorem claim_C3 : ∀ (env : Env) (st : LifecycleState) (img : ImageData),
    removeBackgroundRun env st img =
      ((removeBackgroundAsBlobRun env st img).1,
       (removeBackgroundAsBlobRun env st img).2.1,
       Except.map fileToBase64 (removeBackgroundAsBlobRun env st img).2.2) :=
  removeBackground_eq_blob_map

/-- C8 counterexample: the status record's fields are `currentModelId`,
`isWebGPUSupported` and `isIOS`; no field is named `accelerated` or
`constrainedPlatform`. -/
theorem claim_C8_counterexample :
    (getModelInfoRun envAllOk .Uninitialized).map Prod.fst =
      ["currentModelId", "isWebGPUSupported", "isIOS"] ∧
    "accelerated" ∉ (getModelInfoRun envAllOk .Uninitialized).map Prod.fst ∧
    "constrainedPlatform" ∉ (getModelInfoRun envAllOk .Uninitialized).map Prod.fst := by
  refine ⟨rfl, by decide, by decide⟩

/-- C8 (amended): `getModelInfo` is a read-only, total, synchronous
function of the state and cached capabilities; it always returns the
three-field record with the current model identifier, the acceleration
flag and the constrained-platform flag, but the fields are named
`currentModelId`, `isWebGPUSupported` and `isIOS`. -/
theorem claim_C8 : ∀ (env : Env) (st : LifecycleState),
    getModelInfoRun env st =
      [("currentModelId", .s (currentModelIdOf st)),
       ("isWebGPUSupported", .b env.caps.isWebGPUSupported),
       ("isIOS", .b env.caps.isIOS)] ∧
    (getModelInfoRun env st).map Prod.fst =
      ["currentModelId", "isWebGPUSupported", "isIOS"] :=
  fun env st => ⟨rfl, rfl⟩

/-- C4 counterexample: with the model not yet initialized, a malformed
payload (`"%%%%"` is not base64) still changes LifecycleState — the
auto-initialization step runs before decoding — even though the call is
rejected with the decode error and `processImage` is never invoked. -/
theorem claim_C4_counterexample :
    (removeBackgroundRun envAllOk .Uninitialized (.str "%%%%")).1 ≠
      .Uninitialized ∧
    (removeBackgroundRun envAllOk .Uninitialized (.str "%%%%")).2.2 =
      .error decodeErrorMsg ∧
    Ev.process ∉ (removeBackgroundRun envAllOk .Uninitialized (.str "%%%%")).2.1 := by
  refine ⟨by decide, rfl, by decide⟩

/-- C4 (amended): a malformed encoded-string payload is rejected without
`processImage` ever being invoked, and when the auto-initialization step
succeeds the rejection is exactly the decode error; but the
auto-initialization runs before decoding, so the call's effect on
LifecycleState is that of the readiness step (it is not a no-op in
general), and if that step fails its error replaces the decode error. -/
theorem claim_C4 : ∀ (env : Env) (st : LifecycleState) (s : String),
    atobChars (base64PayloadOf s.data) = none →
    (Ev.process ∉ (removeBackgroundRun env st (.str s)).2.1 ∧
     Ev.process ∉ (removeBackgroundAsBlobRun env st (.str s)).2.1) ∧
    ((removeBackgroundRun env st (.str s)).1 = (initModel env st none).1 ∧
     (removeBackgroundAsBlobRun env st (.str s)).1 = (initModel env st none).1) ∧
    (∀ b, (initModel env st none).2 = .ok b →
      removeBackgroundRun env st (.str s) =
        ((initModel env st none).1, [Ev.ensure], .error decodeErrorMsg) ∧
      removeBackgroundAsBlobRun env st (.str s) =
        ((initModel env st none).1, [Ev.ensure], .error decodeErrorMsg)) := by
  intro env st s hdec
  have hconv : convertToFile (.str s) = .error decodeErrorMsg := by
    simp [convertToFile, hdec]
  unfold removeBackgroundRun removeBackgroundAsBlobRun
  rcases hi : initModel env st none with ⟨st1, r1⟩
  rcases r1 with e | b
  · refine ⟨⟨by simp, by simp⟩, ⟨by simp, by simp⟩, ?_⟩
    intro b hb
    simp at hb
  · refine ⟨⟨by simp [hconv], by simp [hconv]⟩, ⟨by simp [hconv], by simp [hconv]⟩, ?_⟩
    intro b2 hb
    exact ⟨by simp [hconv], by simp [hconv]⟩

theorem claim_C4_witness :
    removeBackgroundRun envAllOk (.Ready "briaai/RMBG-1.4" true) (.str "§§") =
      (.Ready "briaai/RMBG-1.4" true, [Ev.ensure], .error decodeErrorMsg) ∧
    removeBackgroundAsBlobRun envAllOk (.Ready "briaai/RMBG-1.4" true) (.str "§§") =
      (.Ready "briaai/RMBG-1.4" true, [Ev.ensure], .error decodeErrorMsg) :=
  (claim_C4 envAllOk (.Ready "briaai/RMBG-1.4" true) "§§" rfl).2.2 true rfl

/-- C9 counterexample: for a payload containing a second `'base64,'`
marker, the code decodes only the segment between the first and second
markers (here `QUJD`, the bytes of `ABC`), while the claim's rule —
decode the whole remainder after the first marker — would fail on the
comma. -/
theorem claim_C9_counterexample :
    convertToFile (.str "base64,QUJDbase64,REVG") =
      .ok ⟨"input-image.png", "image/png", [65, 66, 67]⟩ ∧
    claimRemainderMarshal "base64,QUJDbase64,REVG" = none :=
  ⟨rfl, rfl⟩

/-- C9 (amended): string marshalling takes, as the base64 payload, the
segment strictly between the first `'base64,'` marker and the next one
(JS `split('base64,')[1]`), falling back to the whole string when no
marker occurs; the decoded bytes are wrapped as a `File` named
`input-image.png` with MIME type `image/png` regardless of actual format
(or rejected with the decode error); a `Blob` input keeps its declared
MIME type, with `image/png` substituted when it is empty. -/
theorem claim_C9 :
    (∀ a t : List Char, hasB64 a = false →
      base64PayloadOf (a ++ b64Marker ++ t) = (splitB64 t).1) ∧
    (∀ cs : List Char, hasB64 cs = false → base64PayloadOf cs = cs) ∧
    (∀ (s : String) (bytes : List Nat),
      atobChars (base64PayloadOf s.data) = some bytes →
      convertToFile (.str s) = .ok ⟨"input-image.png", "image/png", bytes⟩) ∧
    (∀ s : String, atobChars (base64PayloadOf s.data) = none →
      convertToFile (.str s) = .error decodeErrorMsg) ∧
    (∀ b : JsBlob, b.type ≠ "" →
      convertToFile (.blob b) = .ok ⟨"input-image.png", b.type, b.bytes⟩) ∧
    (∀ b : JsBlob, b.type = "" →
      convertToFile (.blob b) = .ok ⟨"input-image.png", "image/png", b.bytes⟩) := by
  refine ⟨?_, ?_, ?_, ?_, ?_, ?_⟩
  · intro a t h
    unfold base64PayloadOf
    rw [hasB64_append_marker a t, if_pos rfl, splitB64_append_marker a t h]
    rfl
  · intro cs h
    simp [base64PayloadOf, h]
  · intro s bytes h
    simp [convertToFile, h]
  · intro s h
    simp [convertToFile, h]
  · intro b h
    simp [convertToFile, h]
  · intro b h
    simp [convertToFile, h]

theorem claim_C9_witness :
    base64PayloadOf ("data:x;".data ++ b64Marker ++ "QQ==".data) =
      (splitB64 "QQ==".data).1 ∧
    convertToFile (.blob ⟨"image/jpeg", [1, 2]⟩) =
      .ok ⟨"input-image.png", "image/jpeg", [1, 2]⟩ :=
  ⟨claim_C9.1 "data:x;".data "QQ==".data (by decide),
   claim_C9.2.2.2.2.1 ⟨"image/jpeg", [1, 2]⟩ (by decide)⟩

theorem containsSub_fallbackMsg (a b : String) :
    containsSub "Falling back".data (fallbackMsg a b).data = true := by
  have h1 : (fallbackMsg a b).data =
      "Falling back".data ++
        (" to ".data ++ b.data ++ " after failing to load ".data ++ a.data) := by
    simp [fallbackMsg, String.data_append, List.append_assoc]
  rw [h1]
  exact containsSub_self_append _ _

/-- C6: when switching to a new model fails to load but the fallback
target (the previously active model, or the platform default when none
exists) loads, the system ends `Ready` on the fallback — never `Failed` —
and the caller receives a distinguishable error whose message carries the
`"Falling back"` marker, which `handleModelChange` recognises and uses to
reset the selection to the default rather than show a false success. -/
theorem claim_C6 : ∀ (env : Env) (st : LifecycleState) (newId : String),
    ((∃ m b, st = .Ready m b) ∨ (∃ m c, st = .Failed m c)) →
    env.loadOk newId = false →
    env.loadOk (fallbackTarget st) = true →
    (switchModel env st newId).1 =
      .Ready (fallbackTarget st) (backendFor env.caps) ∧
    (∀ m c, (switchModel env st newId).1 ≠ .Failed m c) ∧
    (switchModel env st newId).2 =
      .error (fallbackMsg newId (fallbackTarget st)) ∧
    containsSub "Falling back".data
      (fallbackMsg newId (fallbackTarget st)).data = true ∧
    handleModelChange newId (switchModel env st newId).2 =
      .selected defaultModelId := by
  intro env st newId hst hnew hfb
  have hsw : switchModel env st newId =
      (.Ready (fallbackTarget st) (backendFor env.caps),
       .error (fallbackMsg newId (fallbackTarget st))) := by
    rcases hst with ⟨m, b, rfl⟩ | ⟨m, c, rfl⟩ <;>
      simp [switchModel, hnew, hfb]
  refine ⟨by rw [hsw], by rw [hsw]; intro m c; simp, by rw [hsw], ?_, ?_⟩
  · exact containsSub_fallbackMsg _ _
  · rw [hsw]
    show (if containsSub "Falling back".data
            (fallbackMsg newId (fallbackTarget st)).data = true
          then UiOutcome.selected "briaai/RMBG-1.4"
          else UiOutcome.errorShown (fallbackMsg newId (fallbackTarget st))) =
        UiOutcome.selected defaultModelId
    rw [if_pos (containsSub_fallbackMsg newId (fallbackTarget st))]
    rfl

theorem claim_C6_witness :
    (switchModel envModnetDown (.Ready "briaai/RMBG-1.4" true) "Xenova/modnet").1 =
      .Ready "briaai/RMBG-1.4" true ∧
    handleModelChange "Xenova/modnet"
      (switchModel envModnetDown (.Ready "briaai/RMBG-1.4" true) "Xenova/modnet").2 =
      .selected defaultModelId := by
  have h := claim_C6 envModnetDown (.Ready "briaai/RMBG-1.4" true) "Xenova/modnet"
    (Or.inl ⟨"briaai/RMBG-1.4", true, rfl⟩) (by decide) (by decide)
  exact ⟨h.1, h.2.2.2.2⟩

/-- C7: under every interleaving of submissions and worker activity —
including bursts of five or more submissions — at most one request is
inside the black-box inference runtime at any instant. -/
theorem qstep_inv {q q' : QueueState} (hs : QStep q q')
    (ih : (q.processing = false → q.inFlight = []) ∧ q.inFlight.length ≤ 1) :
    (q'.processing = false → q'.inFlight = []) ∧ q'.inFlight.length ≤ 1 := by
  cases hs with
  | submit => exact ⟨fun hp2 => ih.1 hp2, ih.2⟩
  | start r rest hflag hp =>
      have hempty : q.inFlight = [] := ih.1 hflag
      exact ⟨fun hfalse => by simp at hfalse, by simp [hempty]⟩
  | finish r rest hf =>
      have hlen := ih.2
      rw [hf] at hlen
      simp only [List.length_cons] at hlen
      have hrest : rest = [] := List.length_eq_zero.mp (by omega)
      exact ⟨fun _ => hrest, by simp [hrest]⟩

theorem claim_C7 : ∀ q : QueueState, QReach q → q.inFlight.length ≤ 1 := by
  have hinv : ∀ q : QueueState, QReach q →
      (q.processing = false → q.inFlight = []) ∧ q.inFlight.length ≤ 1 := by
    intro q h
    induction h with
    | init => exact ⟨fun _ => rfl, by simp⟩
    | step hr hs ih => exact qstep_inv hs ih
  exact fun q h => (hinv q h).2

theorem claim_C7_witness :
    (⟨5, [1, 2, 3, 4], [0], true⟩ : QueueState).inFlight.length ≤ 1 := by
  apply claim_C7
  have h0 : QReach ⟨0, [], [], false⟩ := QReach.init
  have h1 : QReach ⟨1, [0], [], false⟩ :=
    QReach.step h0 (QStep.submit ⟨0, [], [], false⟩)
  have h2 : QReach ⟨2, [0, 1], [], false⟩ :=
    QReach.step h1 (QStep.submit ⟨1, [0], [], false⟩)
  have h3 : QReach ⟨3, [0, 1, 2], [], false⟩ :=
    QReach.step h2 (QStep.submit ⟨2, [0, 1], [], false⟩)
  have h4 : QReach ⟨4, [0, 1, 2, 3], [], false⟩ :=
    QReach.step h3 (QStep.submit ⟨3, [0, 1, 2], [], false⟩)
  have h5 : QReach ⟨5, [0, 1, 2, 3, 4], [], false⟩ :=
    QReach.step h4 (QStep.submit ⟨4, [0, 1, 2, 3], [], false⟩)
  exact QReach.step h5
    (QStep.start ⟨5, [0, 1, 2, 3, 4], [], false⟩ 0 [1, 2, 3, 4] rfl rfl)

/-- C5: both remove-background operations run the readiness step first and
invoke the inference runtime only after it succeeded; a failed readiness
step rejects the request with exactly the initialization error; and a
later request is processed on its own merits from whatever state the
failure left behind (its own successful steps make it succeed). -/
theorem claim_C5 : ∀ (env : Env) (st : LifecycleState) (img : ImageData),
    ((removeBackgroundRun env st img).2.1.head? = some Ev.ensure ∧
     (removeBackgroundAsBlobRun env st img).2.1.head? = some Ev.ensure) ∧
    (Ev.process ∈ (removeBackgroundRun env st img).2.1 →
      ∃ b, (initModel env st none).2 = .ok b) ∧
    (Ev.process ∈ (removeBackgroundAsBlobRun env st img).2.1 →
      ∃ b, (initModel env st none).2 = .ok b) ∧
    (∀ e, (initModel env st none).2 = .error e →
      removeBackgroundRun env st img =
        ((initModel env st none).1, [Ev.ensure], .error e) ∧
      removeBackgroundAsBlobRun env st img =
        ((initModel env st none).1, [Ev.ensure], .error e)) ∧
    (∀ (env2 : Env) (st2 : LifecycleState) (img2 : ImageData) (f g : JsFile),
      (∀ m, env2.loadOk m = true) → convertToFile img2 = .ok f →
      env2.runInference f = .ok g →
      (removeBackgroundRun env2 st2 img2).2.2 = .ok (fileToBase64 g) ∧
      (removeBackgroundAsBlobRun env2 st2 img2).2.2 = .ok g) := by
  intro env st img
  refine ⟨?_, ?_, ?_, ?_, ?_⟩
  · unfold removeBackgroundRun removeBackgroundAsBlobRun
    rcases hi : initModel env st none with ⟨st1, r1⟩
    rcases r1 with e | b
    · exact ⟨rfl, rfl⟩
    · rcases hc : convertToFile img with e | f
      · simp [hc]
      · rcases hr : env.runInference f with e | pf <;> simp [hc, hr]
  · unfold removeBackgroundRun
    rcases hi : initModel env st none with ⟨st1, r1⟩
    rcases r1 with e | b
    · intro hmem
      simp at hmem
    · intro hmem
      exact ⟨b, rfl⟩
  · unfold removeBackgroundAsBlobRun
    rcases hi : initModel env st none with ⟨st1, r1⟩
    rcases r1 with e | b
    · intro hmem
      simp at hmem
    · intro hmem
      exact ⟨b, rfl⟩
  · intro e he
    unfold removeBackgroundRun removeBackgroundAsBlobRun
    rcases hi : initModel env st none with ⟨st1, r1⟩
    rw [hi] at he
    simp only at he
    subst he
    exact ⟨by simp, by simp⟩
  · intro env2 st2 img2 f g hload hconv hrun
    have hi2 : (initModel env2 st2 none).2 = .ok true :=
      initModel_ok_of_loadOk env2 st2 none hload
    unfold removeBackgroundRun removeBackgroundAsBlobRun
    rcases hi : initModel env2 st2 none with ⟨st1, r1⟩
    rw [hi] at hi2
    simp only at hi2
    subst hi2
    simp [hconv, hrun]

theorem claim_C5_witness :
    removeBackgroundRun envNoLoad .Uninitialized (.blob ⟨"image/png", [1]⟩) =
      (.Failed "briaai/RMBG-1.4" "load failed", [Ev.ensure],
       .error "Failed to load model briaai/RMBG-1.4") ∧
    (removeBackgroundRun envAllOk .Uninitialized (.blob ⟨"image/png", [65]⟩)).2.2 =
      .ok (fileToBase64 ⟨"input-image.png", "image/png", [65]⟩) := by
  constructor
  · exact ((claim_C5 envNoLoad .Uninitialized (.blob ⟨"image/png", [1]⟩)).2.2.2.1
      "Failed to load model briaai/RMBG-1.4" rfl).1
  · exact ((claim_C5 envNoLoad .Uninitialized (.blob ⟨"image/png", [1]⟩)).2.2.2.2
      envAllOk .Uninitialized (.blob ⟨"image/png", [65]⟩)
      ⟨"input-image.png", "image/png", [65]⟩
      ⟨"input-image.png", "image/png", [65]⟩
      (fun m => rfl) rfl rfl).1

/-- C10: a successful `removeBackground` resolves with exactly the data URL
`data:<mime>;base64,<payload>` of the processed file that the same call
through `removeBackgroundAsBlob` yields, and that string round-trips: fed
back to the input marshalling, it is accepted — the prefix through
`'base64,'` is stripped — and decodes to exactly the processed bytes. -/
theorem claim_C10 : ∀ (env : Env) (st st2 : LifecycleState) (img : ImageData)
    (tr : List Ev) (f : JsFile),
    removeBackgroundAsBlobRun env st img = (st2, tr, .ok f) →
    hasB64 ("data:" ++ f.type ++ ";").data = false →
    ValidBytes f.bytes →
    removeBackgroundRun env st img = (st2, tr, .ok (fileToBase64 f)) ∧
    fileToBase64 f =
      "data:" ++ f.type ++ ";base64," ++ String.mk (btoaChunks f.bytes) ∧
    convertToFile (.str (fileToBase64 f)) =
      .ok ⟨"input-image.png", "image/png", f.bytes⟩ := by
  intro env st st2 img tr f hblob hmime hvb
  refine ⟨?_, rfl, ?_⟩
  · rw [removeBackground_eq_blob_map, hblob]
    rfl
  · have hdata : (fileToBase64 f).data =
        ("data:" ++ f.type ++ ";").data ++ b64Marker ++ btoaChunks f.bytes := by
      show ("data:" ++ f.type ++ ";base64," ++ String.mk (btoaChunks f.bytes)).data = _
      simp only [String.data_append]
      simp [b64Marker, List.append_assoc]
    have hpayload : base64PayloadOf (fileToBase64 f).data = btoaChunks f.bytes := by
      rw [hdata]
      unfold base64PayloadOf
      rw [hasB64_append_marker, if_pos rfl,
        splitB64_append_marker _ _ hmime]
      have hnb : hasB64 (btoaChunks f.bytes) = false :=
        not_hasB64_of_comma_notMem _ (comma_notMem_btoaChunks f.bytes)
      rw [show ((("data:" ++ f.type ++ ";").data, (splitB64 (btoaChunks f.bytes)).1 ::
            (splitB64 (btoaChunks f.bytes)).2).2.headD []) =
          (splitB64 (btoaChunks f.bytes)).1 from rfl,
        splitB64_of_not_hasB64 _ hnb]
    simp [convertToFile, hpayload, atob_btoa f.bytes hvb]

theorem claim_C10_witness :
    removeBackgroundRun envAllOk .Uninitialized (.blob ⟨"image/png", [65, 66]⟩) =
      (.Ready "briaai/RMBG-1.4" true, [Ev.ensure, Ev.process],
       .ok (fileToBase64 ⟨"input-image.png", "image/png", [65, 66]⟩)) ∧
    convertToFile (.str (fileToBase64 ⟨"input-image.png", "image/png", [65, 66]⟩)) =
      .ok ⟨"input-image.png", "image/png", [65, 66]⟩ := by
  have h := claim_C10 envAllOk .Uninitialized (.Ready "briaai/RMBG-1.4" true)
    (.blob ⟨"image/png", [65, 66]⟩) [Ev.ensure, Ev.process]
    ⟨"input-image.png", "image/png", [65, 66]⟩ rfl (by decide) (by decide)
  exact ⟨h.1, h.2.2⟩

end BgRemove
